import Mathlib

/-!
Shallow embedding of the workspace-manager session observability core.

Rust strings are modelled as Lean `String` (their character list is accessed
through `String.data` where the Rust code slices or tests prefixes; every
sliced prefix in the source is pure ASCII, so byte indices and character
indices agree).  `SystemTime` values are modelled as `Nat` clock parameters
threaded into the operations that call `SystemTime.now`.  `HashMap`s are
modelled as association lists with first-match lookup; the embedded code
never iterates over a map, so iteration order is irrelevant.  `serde_json`
values are modelled by the inductive `Json` below.
-/

namespace WorkspaceManager

/-- Model of a serde_json `Value`. -/
inductive Json where
  | null
  | bool (b : Bool)
  | num (n : Int)
  | str (s : String)
  | arr (elems : List Json)
  | obj (fields : List (String × Json))

/-- Model of `Value::get(key)` composed with `as_object`: field lookup on an
object, `none` on any other value. -/
def Json.get : Json → String → Option Json
  | .obj fields, k => (fields.find? (fun e => decide (e.1 = k))).map (·.2)
  | _, _ => none

/-- Model of `Value::as_str`. -/
def Json.asStr : Json → Option String
  | .str s => some s
  | _ => none

/-- Model of `Value::as_array`. -/
def Json.asArr : Json → Option (List Json)
  | .arr elems => some elems
  | _ => none

/-- First-match lookup in an association list (model of `HashMap::get`). -/
def mapGet {α β : Type} [DecidableEq α] (m : List (α × β)) (k : α) : Option β :=
  (m.find? (fun e => decide (e.1 = k))).map (·.2)

/-- Insert-or-overwrite in an association list (model of `HashMap::insert`). -/
def mapInsert {α β : Type} [DecidableEq α] (m : List (α × β)) (k : α) (v : β) :
    List (α × β) :=
  if (m.find? (fun e => decide (e.1 = k))).isSome then
    m.map (fun e => if e.1 = k then (k, v) else e)
  else
    m ++ [(k, v)]

/-- Model of `map.entry(k).or_default().push(v)` for `HashMap<_, Vec<_>>`. -/
def bucketPush (m : List (Nat × List Nat)) (k : Nat) (v : Nat) :
    List (Nat × List Nat) :=
  if (m.find? (fun e => decide (e.1 = k))).isSome then
    m.map (fun e => if e.1 = k then (e.1, e.2 ++ [v]) else e)
  else
    m ++ [(k, [v])]

/-- In-place update of the i-th element, a no-op out of range (model of
`vec.get_mut(i)` followed by a field assignment). -/
def listModify {α : Type} (l : List α) (i : Nat) (f : α → α) : List α :=
  match l.get? i with
  | some a => l.set i (f a)
  | none => l

/-- Embedding of `normalize_path` (identical copies live in `app/state.rs`
and `logwatch/claude_sessions.rs`): a path starting with the two characters
tilde slash has the tilde replaced by the HOME value when HOME is set; every
other path, and every path when HOME is unset, is returned unchanged.  The
HOME environment variable is the `home` parameter. -/
def normalize_path (home : Option String) (path : String) : String :=
  if (['~', '/'].isPrefixOf path.data) then
    match home with
    | some h => String.mk (h.data ++ path.data.drop 1)
    | none => path
  else path

theorem normalize_path_of_not_tilde {home : Option String} {p : String}
    (hp : (['~', '/'].isPrefixOf p.data) = false) :
    normalize_path home p = p := by
  simp [normalize_path, hp]

theorem isPrefixOf_tilde_append_false {h : List Char} {t : List Char}
    (hh : (['~'].isPrefixOf h) = false) :
    (['~', '/'].isPrefixOf (h ++ '/' :: t)) = false := by
  cases h with
  | nil => simp [List.isPrefixOf]
  | cons c hs =>
    simp only [List.isPrefixOf, Bool.and_eq_true, Bool.and_eq_false_iff] at hh ⊢
    rcases hh with hc | hfalse
    · exact Or.inl hc
    · simp at hfalse

/-- Claim C9 (amended): `normalize_path` expands a leading tilde slash
against the home directory and leaves every other path unchanged (so a
trailing slash is never trimmed), and it is idempotent provided the home
directory value does not itself begin with a tilde. -/
theorem claim_C9 (home : Option String) (p : String)
    (hhome : ∀ h, home = some h → (['~'].isPrefixOf h.data) = false) :
    normalize_path home (normalize_path home p) = normalize_path home p ∧
    ((['~', '/'].isPrefixOf p.data) = false → normalize_path home p = p) := by
  constructor
  · by_cases hp : (['~', '/'].isPrefixOf p.data) = true
    · cases home with
      | none => simp [normalize_path, hp]
      | some h =>
        have hnorm : normalize_path (some h) p = String.mk (h.data ++ p.data.drop 1) := by
          simp [normalize_path, hp]
        rw [hnorm]
        rcases hdata : p.data with _ | ⟨c, cs⟩
        · rw [hdata] at hp; simp [List.isPrefixOf] at hp
        · rcases cs with _ | ⟨d, t⟩
          · rw [hdata] at hp; simp [List.isPrefixOf] at hp
          · rw [hdata] at hp
            simp only [List.isPrefixOf, Bool.and_eq_true, beq_iff_eq] at hp
            obtain ⟨hc, hd, -⟩ := hp
            subst hc; subst hd
            have hpre : (['~', '/'].isPrefixOf
                ((String.mk (h.data ++ ('~' :: '/' :: t).drop 1)).data)) = false := by
              simpa using isPrefixOf_tilde_append_false (t := t) (hhome h rfl)
            exact normalize_path_of_not_tilde hpre
    · have hp' : (['~', '/'].isPrefixOf p.data) = false :=
        Bool.eq_false_iff.mpr hp
      rw [normalize_path_of_not_tilde hp', normalize_path_of_not_tilde hp']
  · intro hp
    exact normalize_path_of_not_tilde hp

/-- Witness for claim C9 at a concrete home directory and path. -/
theorem claim_C9_witness :
    normalize_path (some "/home/u") (normalize_path (some "/home/u") "~/proj") =
      normalize_path (some "/home/u") "~/proj" ∧
    ((['~', '/'].isPrefixOf ("/a/b".data)) = false →
      normalize_path (some "/home/u") "/a/b" = "/a/b") :=
  claim_C9 (some "/home/u") "~/proj" (by intro h hh; cases hh; decide)
    |>.left |> (fun h1 =>
      ⟨h1, (claim_C9 (some "/home/u") "/a/b"
        (by intro h hh; cases hh; decide)).right⟩)

/-- Counterexample to claim C9 as stated: normalisation does not trim a
trailing slash.  Expanding the tilde keeps the trailing slash, and a plain
path with a trailing slash is returned unchanged. -/
theorem counter_C9 :
    normalize_path (some "/home/u") "~/x/" = "/home/u/x/" ∧
    normalize_path (some "/home/u") "/w/p/" = "/w/p/" ∧
    ("/home/u/x/" : String) ≠ "/home/u/x" ∧
    ("/w/p/" : String) ≠ "/w/p" := by
  refine ⟨?_, ?_, by decide, by decide⟩
  · show normalize_path (some "/home/u") "~/x/" = "/home/u/x/"
    decide
  · decide

/-! ## Claude observer: subagent pruning (logwatch/claude_sessions.rs) -/

/-- Embedding of `ClaudeProcessInfo`. -/
structure ClaudeProcessInfo where
  pid : Nat
  cwd : String
  session_id : Option String
  ppid : Option Nat
deriving DecidableEq, Repr

/-- The inner loop of `filter_subagents`: starting from a parent pid, walk
up to `fuel` hops through the observed pid-to-ppid map; the process is kept
(`true`) unless some visited ancestor is an observed Claude pid. -/
def keepLoop (claude_pids : List Nat) (pid_to_ppid : List (Nat × Nat)) :
    Nat → Option Nat → Bool
  | 0, _ => true
  | _ + 1, none => true
  | fuel + 1, some ppid =>
    if ppid ∈ claude_pids then false
    else keepLoop claude_pids pid_to_ppid fuel (mapGet pid_to_ppid ppid)

/-- Embedding of `filter_subagents`: drop every process one of whose
ancestors within three hops (walked through the ppid column of the observed
processes) is itself an observed Claude pid. -/
def filter_subagents (processes : List ClaudeProcessInfo) : List ClaudeProcessInfo :=
  let claude_pids := processes.map (·.pid)
  let pid_to_ppid : List (Nat × Nat) :=
    processes.filterMap (fun p => p.ppid.map (fun ppid => (p.pid, ppid)))
  processes.filter (fun p => keepLoop claude_pids pid_to_ppid 3 p.ppid)

/-- The k-th ancestor of a starting parent pid, following the observed
pid-to-ppid map (specification-side chain). -/
def ancestorHop (pid_to_ppid : List (Nat × Nat)) (start : Option Nat) : Nat → Option Nat
  | 0 => start
  | k + 1 => (ancestorHop pid_to_ppid start k).bind (mapGet pid_to_ppid)

/-- Specification-side predicate: some ancestor within `bound` hops is an
observed Claude pid. -/
def hasClaudeAncestorWithin (claude_pids : List Nat) (pid_to_ppid : List (Nat × Nat))
    (start : Option Nat) (bound : Nat) : Bool :=
  (List.range bound).any (fun k =>
    match ancestorHop pid_to_ppid start k with
    | some q => decide (q ∈ claude_pids)
    | none => false)

theorem ancestorHop_succ_head (m : List (Nat × Nat)) (ppid : Nat) (k : Nat) :
    ancestorHop m (some ppid) (k + 1) = ancestorHop m (mapGet m ppid) k := by
  induction k with
  | zero => rfl
  | succ k ih =>
    show (ancestorHop m (some ppid) (k + 1)).bind (mapGet m) = _
    rw [ih]
    rfl

theorem keepLoop_eq_not_hasAncestor (pids : List Nat) (m : List (Nat × Nat)) :
    ∀ (fuel : Nat) (start : Option Nat),
      keepLoop pids m fuel start = !(hasClaudeAncestorWithin pids m start fuel) := by
  intro fuel
  induction fuel with
  | zero =>
    intro start
    simp [keepLoop, hasClaudeAncestorWithin]
  | succ fuel ih =>
    intro start
    cases start with
    | none =>
      have hnone : ∀ k, ancestorHop m none k = none := by
        intro k
        induction k with
        | zero => rfl
        | succ k ihk =>
          show (ancestorHop m none k).bind (mapGet m) = none
          rw [ihk]
          rfl
      simp [keepLoop, hasClaudeAncestorWithin, hnone]
    | some ppid =>
      by_cases hmem : ppid ∈ pids
      · have h0 : hasClaudeAncestorWithin pids m (some ppid) (fuel + 1) = true := by
          unfold hasClaudeAncestorWithin
          rw [List.any_eq_true]
          exact ⟨0, List.mem_range.mpr (Nat.succ_pos fuel), by simp [ancestorHop, hmem]⟩
        simp [keepLoop, hmem, h0]
      · have hstep : keepLoop pids m (fuel + 1) (some ppid)
            = keepLoop pids m fuel (mapGet m ppid) := by
          simp [keepLoop, hmem]
        rw [hstep, ih]
        congr 1
        unfold hasClaudeAncestorWithin
        rw [List.range_succ_eq_map]
        simp only [List.any_cons, List.any_map, Function.comp]
        have h0 : (match ancestorHop m (some ppid) 0 with
            | some q => decide (q ∈ pids)
            | none => false) = false := by
          simp [ancestorHop, hmem]
        rw [h0, Bool.false_or]
        have hfun : (fun k => (match ancestorHop m (some ppid) (Nat.succ k) with
            | some q => decide (q ∈ pids)
            | none => false))
            = (fun k => (match ancestorHop m (mapGet m ppid) k with
            | some q => decide (q ∈ pids)
            | none => false)) := by
          funext k
          rw [show Nat.succ k = k + 1 from rfl, ancestorHop_succ_head]
        rw [← hfun]
        rfl

/-- Claim C7: a process survives `filter_subagents` exactly when none of its
ancestors within three hops (walked through the observed ppid map) is an
observed Claude pid; on the concrete process table of pids 100 (ppid 1),
200 (ppid 100), 300 (ppid 200) only pid 100 survives. -/
theorem claim_C7 :
    (∀ (processes : List ClaudeProcessInfo),
      filter_subagents processes = processes.filter (fun p =>
        !(hasClaudeAncestorWithin (processes.map (·.pid))
          (processes.filterMap (fun q => q.ppid.map (fun ppid => (q.pid, ppid))))
          p.ppid 3))) ∧
    filter_subagents
      [⟨100, "/w/p", none, some 1⟩, ⟨200, "/w/p", none, some 100⟩,
       ⟨300, "/w/p", none, some 200⟩] =
      [⟨100, "/w/p", none, some 1⟩] := by
  constructor
  · intro processes
    unfold filter_subagents
    apply List.filter_congr
    intro p _
    exact keepLoop_eq_not_hasAncestor _ _ 3 p.ppid
  · decide

/-! ## Session model and aggregator state (workspace/session.rs, app/state.rs) -/

/-- Embedding of `workspace::SessionStatus`. -/
inductive SessionStatus where
  | Idle
  | Working
  | NeedsInput
  | Success
  | Error
  | Disconnected
deriving DecidableEq, Repr

/-- Embedding of `AiTool`. -/
inductive AiTool where
  | Claude
  | Kiro
  | OpenCode
  | Codex
deriving DecidableEq, Repr

/-- Embedding of `workspace::Session`.  The random `SessionId` field is
omitted (no embedded operation reads it); `SystemTime` fields are `Nat`. -/
structure Session where
  external_id : String
  workspace_index : Nat
  tool : AiTool
  status : SessionStatus
  state_detail : Option String
  summary : Option String
  current_task : Option String
  last_activity : Option Nat
  pane_id : Option Nat
  tab_name : Option String
  created_at : Nat
  updated_at : Nat
deriving DecidableEq, Repr

/-- Embedding of `Session::new`; `now` models `SystemTime::now()`. -/
def Session.new (external_id : String) (workspace_index : Nat) (tool : AiTool)
    (now : Nat) : Session :=
  { external_id := external_id
    workspace_index := workspace_index
    tool := tool
    status := SessionStatus.Idle
    state_detail := none
    summary := none
    current_task := none
    last_activity := some now
    pane_id := none
    tab_name := none
    created_at := now
    updated_at := now }

/-- Embedding of `Session::disconnect`. -/
def Session.disconnect (s : Session) (now : Nat) : Session :=
  { s with status := SessionStatus.Disconnected, updated_at := now }

/-- Embedding of `Session::is_active`. -/
def Session.is_active (s : Session) : Bool :=
  decide (s.status ≠ SessionStatus.Disconnected)

/-- Embedding of `workspace::Workspace` restricted to the fields the
aggregator reads (`id` stands for the random Uuid; rendering-only status
fields of the stale workspace-centric revision are not modelled). -/
structure Workspace where
  id : Nat
  project_path : String
  repo_name : String
  branch : String
deriving DecidableEq, Repr

/-- Embedding of `AppState` restricted to the data model: the workspace
list, the session table and its two indices, and the status-bar message.
The render-only fields (`tree_items`, collapse sets, dialogs, selection)
are not read by any session-table operation and are omitted. -/
structure AppState where
  workspaces : List Workspace
  sessions : List Session
  session_map : List (String × Nat)
  sessions_by_workspace : List (Nat × List Nat)
  status_message : Option String
deriving Repr

/-- Embedding of `AppState::sessions_for_workspace`: the indices bucketed
under the workspace, keeping only those whose session exists and is active. -/
def AppState.sessions_for_workspace (st : AppState) (workspace_index : Nat) :
    List Nat :=
  match mapGet st.sessions_by_workspace workspace_index with
  | some indices =>
    indices.filter (fun idx =>
      match st.sessions.get? idx with
      | some s => s.is_active
      | none => false)
  | none => []

/-- Embedding of `AppState::add_session`; returns the new state and the
index of the appended session. -/
def AppState.add_session (st : AppState) (session : Session) : AppState × Nat :=
  let session_index := st.sessions.length
  ({ st with
      sessions := st.sessions ++ [session]
      session_map := mapInsert st.session_map session.external_id session_index
      sessions_by_workspace :=
        bucketPush st.sessions_by_workspace session.workspace_index session_index },
    session_index)

/-- Embedding of `AppState::remove_session`: transition the named session
to Disconnected in place; unknown ids and dangling indices are no-ops. -/
def AppState.remove_session (st : AppState) (external_id : String) (now : Nat) :
    AppState :=
  match mapGet st.session_map external_id with
  | some session_index =>
    { st with sessions := listModify st.sessions session_index (fun s => s.disconnect now) }
  | none => st

/-- Embedding of `AppState::update_session_status`. -/
def AppState.update_session_status (st : AppState) (external_id : String)
    (status : SessionStatus) (message : Option String) (now : Nat) : AppState :=
  match mapGet st.session_map external_id with
  | some session_index =>
    { st with sessions := listModify st.sessions session_index (fun s =>
        { s with
            status := status
            summary := if message.isSome then message else s.summary
            updated_at := now
            last_activity := some now }) }
  | none => st

/-- Embedding of `AppState::find_workspace_by_path`. -/
def AppState.find_workspace_by_path (home : Option String) (st : AppState)
    (project_path : String) : Option Nat :=
  let normalized := normalize_path home project_path
  st.workspaces.findIdx? (fun w => normalize_path home w.project_path == normalized)

/-- Embedding of `AppState::register_session`: look the workspace up by
normalised path; update the existing session in place when the external id
is known, otherwise append a fresh session. -/
def AppState.register_session (home : Option String) (st : AppState)
    (external_id : String) (project_path : String) (tool : AiTool)
    (pane_id : Option Nat) (now : Nat) : AppState × Option Nat :=
  match st.find_workspace_by_path home project_path with
  | none => (st, none)
  | some workspace_index =>
    match mapGet st.session_map external_id with
    | some session_index =>
      ({ st with sessions := listModify st.sessions session_index (fun s =>
          { s with
              status := SessionStatus.Idle
              pane_id := pane_id
              updated_at := now }) },
        some session_index)
    | none =>
      let session := { Session.new external_id workspace_index tool now with
                        pane_id := pane_id }
      let result := st.add_session session
      (result.1, some result.2)

/-- Flag triple carried by the aggregation loop of
`AppState::workspace_aggregate_status`. -/
structure AggFlags where
  has_working : Bool
  has_needs_input : Bool
  has_idle : Bool
deriving DecidableEq, Repr

/-- One iteration of the aggregation loop. -/
def aggStep (st : AppState) (acc : AggFlags) (idx : Nat) : AggFlags :=
  match st.sessions.get? idx with
  | some s =>
    match s.status with
    | SessionStatus.Working => { acc with has_working := true }
    | SessionStatus.NeedsInput => { acc with has_needs_input := true }
    | SessionStatus.Idle => { acc with has_idle := true }
    | SessionStatus.Success => { acc with has_idle := true }
    | _ => acc
  | none => acc

/-- Embedding of `AppState::workspace_aggregate_status`. -/
def AppState.workspace_aggregate_status (st : AppState) (workspace_index : Nat) :
    SessionStatus :=
  let session_indices := st.sessions_for_workspace workspace_index
  if session_indices.isEmpty then SessionStatus.Disconnected
  else
    let flags := session_indices.foldl (aggStep st) ⟨false, false, false⟩
    if flags.has_working then SessionStatus.Working
    else if flags.has_needs_input then SessionStatus.NeedsInput
    else if flags.has_idle then SessionStatus.Idle
    else SessionStatus.Disconnected

/-- Stable insertion into a path-sorted list: the new workspace goes after
every element whose path is not greater. -/
def insertByPath (w : Workspace) : List Workspace → List Workspace
  | [] => [w]
  | x :: xs =>
    if w.project_path < x.project_path then w :: x :: xs
    else x :: insertByPath w xs

/-- Stable sort of the workspace list by project path (model of the stable
`workspaces.sort_by` on the path ordering). -/
def sortByPath (ws : List Workspace) : List Workspace :=
  ws.foldl (fun acc w => insertByPath w acc) []

/-- Embedding of `AppState::scan_workspaces`.  The filesystem walk
(`get_default_search_paths` and `scan_for_repositories`) is impure; its
result is the `found` parameter.  The call to `rebuild_tree` recomputes
only the render list `tree_items`, which is outside the modelled state; it
reads but never writes the session table and its indices. -/
def AppState.scan_workspaces (st : AppState) (found : List Workspace) : AppState :=
  let sorted := sortByPath found
  { st with
      workspaces := sorted
      status_message := some ("Found " ++ toString sorted.length ++ " workspaces") }

/-! ## Claim C1: aggregate workspace status -/

/-- The statuses of the sessions at the given indices (dangling indices
contribute nothing, mirroring the `if let Some(session)` guard). -/
def statusesAt (st : AppState) (indices : List Nat) : List SessionStatus :=
  indices.filterMap (fun idx => (st.sessions.get? idx).map (·.status))

/-- Specification-side precedence formula over a list of statuses:
Working beats NeedsInput beats Idle-or-Success; anything else (including
the empty list) yields Disconnected. -/
def aggregateSpec (statuses : List SessionStatus) : SessionStatus :=
  if statuses.any (fun s => decide (s = SessionStatus.Working)) then SessionStatus.Working
  else if statuses.any (fun s => decide (s = SessionStatus.NeedsInput)) then
    SessionStatus.NeedsInput
  else if statuses.any (fun s =>
      decide (s = SessionStatus.Idle ∨ s = SessionStatus.Success)) then
    SessionStatus.Idle
  else SessionStatus.Disconnected

theorem aggStep_foldl (st : AppState) (indices : List Nat) (acc : AggFlags) :
    indices.foldl (aggStep st) acc =
      ⟨acc.has_working ||
        (statusesAt st indices).any (fun s => decide (s = SessionStatus.Working)),
       acc.has_needs_input ||
        (statusesAt st indices).any (fun s => decide (s = SessionStatus.NeedsInput)),
       acc.has_idle ||
        (statusesAt st indices).any (fun s =>
          decide (s = SessionStatus.Idle ∨ s = SessionStatus.Success))⟩ := by
  induction indices generalizing acc with
  | nil => simp [statusesAt]
  | cons idx rest ih =>
    rw [List.foldl_cons, ih]
    cases hget : st.sessions[idx]? with
    | none =>
      simp [statusesAt, aggStep, hget]
    | some s =>
      cases hstatus : s.status <;>
        simp [statusesAt, aggStep, hget, hstatus, Bool.or_assoc]

/-- Claim C1: for every state and workspace handle, the aggregate status
equals the precedence formula applied to the statuses of the sessions in
`sessions_for_workspace` (which are exactly the non-Disconnected sessions
of the workspace), and with zero such sessions the aggregate is
Disconnected. -/
theorem claim_C1 (st : AppState) (workspace_index : Nat) :
    st.workspace_aggregate_status workspace_index =
      aggregateSpec (statusesAt st (st.sessions_for_workspace workspace_index)) ∧
    (st.sessions_for_workspace workspace_index = [] →
      st.workspace_aggregate_status workspace_index = SessionStatus.Disconnected) := by
  constructor
  · unfold AppState.workspace_aggregate_status
    by_cases hempty : (st.sessions_for_workspace workspace_index).isEmpty
    · have : st.sessions_for_workspace workspace_index = [] :=
        List.isEmpty_iff.mp hempty
      simp [this, aggregateSpec, statusesAt]
    · simp only [hempty, if_false, aggStep_foldl]
      rfl
  · intro hnil
    unfold AppState.workspace_aggregate_status
    simp [hnil]

/-- Witness for claim C1 at a concrete state: one Idle and one NeedsInput
session on workspace 0 aggregate to NeedsInput by the precedence formula. -/
theorem claim_C1_witness :
    (AppState.workspace_aggregate_status
        { workspaces := [⟨0, "/w/p", "p", "main"⟩]
          sessions := [Session.new "claude:a" 0 AiTool.Claude 5,
                       { Session.new "claude:b" 0 AiTool.Claude 5 with
                           status := SessionStatus.NeedsInput }]
          session_map := [("claude:a", 0), ("claude:b", 1)]
          sessions_by_workspace := [(0, [0, 1])]
          status_message := none } 0 =
      aggregateSpec (statusesAt
        { workspaces := [⟨0, "/w/p", "p", "main"⟩]
          sessions := [Session.new "claude:a" 0 AiTool.Claude 5,
                       { Session.new "claude:b" 0 AiTool.Claude 5 with
                           status := SessionStatus.NeedsInput }]
          session_map := [("claude:a", 0), ("claude:b", 1)]
          sessions_by_workspace := [(0, [0, 1])]
          status_message := none }
        (AppState.sessions_for_workspace
          { workspaces := [⟨0, "/w/p", "p", "main"⟩]
            sessions := [Session.new "claude:a" 0 AiTool.Claude 5,
                         { Session.new "claude:b" 0 AiTool.Claude 5 with
                             status := SessionStatus.NeedsInput }]
            session_map := [("claude:a", 0), ("claude:b", 1)]
            sessions_by_workspace := [(0, [0, 1])]
            status_message := none } 0))) :=
  (claim_C1 _ 0).left

/-! ## Helper lemmas about listModify -/

theorem listModify_nil {α : Type} (i : Nat) (f : α → α) : listModify ([] : List α) i f = [] := by
  simp [listModify]

theorem listModify_cons_succ {α : Type} (a : α) (l : List α) (i : Nat) (f : α → α) :
    listModify (a :: l) (i + 1) f = a :: listModify l i f := by
  cases h : l[i]? with
  | none => simp [listModify, h]
  | some b => simp [listModify, h]

theorem listModify_getElem? {α : Type} (l : List α) (i j : Nat) (f : α → α) :
    (listModify l i f)[j]? = if i = j then l[j]?.map f else l[j]? := by
  induction l generalizing i j with
  | nil =>
    rw [listModify_nil]
    simp
  | cons a l ih =>
    cases i with
    | zero =>
      have h0 : listModify (a :: l) 0 f = f a :: l := by
        simp [listModify, List.set]
      rw [h0]
      cases j with
      | zero => simp
      | succ j => simp
    | succ i =>
      rw [listModify_cons_succ]
      cases j with
      | zero => simp
      | succ j => simpa using ih i j

theorem listModify_length {α : Type} (l : List α) (i : Nat) (f : α → α) :
    (listModify l i f).length = l.length := by
  unfold listModify
  cases h : l.get? i <;> simp

/-! ## Claim C4: remove transitions to Disconnected; surfaced lists exclude
Disconnected sessions -/

/-- Claim C4: `remove_session` keeps the table intact (same length, same
indices, all other sessions untouched, a no-op on unknown ids) and only
sets the named session to Disconnected; and `sessions_for_workspace` never
surfaces a session whose status is Disconnected. -/
theorem claim_C4 (st : AppState) (external_id : String) (now : Nat) :
    ((st.remove_session external_id now).sessions.length = st.sessions.length ∧
     (st.remove_session external_id now).session_map = st.session_map ∧
     (st.remove_session external_id now).sessions_by_workspace =
       st.sessions_by_workspace ∧
     (st.remove_session external_id now).workspaces = st.workspaces) ∧
    (∀ si s, mapGet st.session_map external_id = some si →
      st.sessions[si]? = some s →
      (st.remove_session external_id now).sessions[si]? =
        some { s with status := SessionStatus.Disconnected, updated_at := now }) ∧
    (∀ j, mapGet st.session_map external_id ≠ some j →
      (st.remove_session external_id now).sessions[j]? = st.sessions[j]?) ∧
    (mapGet st.session_map external_id = none →
      st.remove_session external_id now = st) ∧
    (∀ w idx, idx ∈ st.sessions_for_workspace w →
      ∃ s, st.sessions[idx]? = some s ∧ s.status ≠ SessionStatus.Disconnected) := by
  refine ⟨?_, ?_, ?_, ?_, ?_⟩
  · unfold AppState.remove_session
    cases mapGet st.session_map external_id with
    | none => exact ⟨rfl, rfl, rfl, rfl⟩
    | some si => exact ⟨listModify_length _ _ _, rfl, rfl, rfl⟩
  · intro si s hm hs
    unfold AppState.remove_session
    rw [hm]
    show (listModify st.sessions si (fun s => s.disconnect now))[si]? = _
    rw [listModify_getElem?, if_pos rfl, hs]
    rfl
  · intro j hne
    unfold AppState.remove_session
    cases hm : mapGet st.session_map external_id with
    | none => rfl
    | some si =>
      have hij : si ≠ j := by
        intro h
        exact hne (h ▸ hm)
      show (listModify st.sessions si (fun s => s.disconnect now))[j]? = _
      rw [listModify_getElem?, if_neg hij]
  · intro hm
    unfold AppState.remove_session
    rw [hm]
  · intro w idx hmem
    unfold AppState.sessions_for_workspace at hmem
    cases hb : mapGet st.sessions_by_workspace w with
    | none => rw [hb] at hmem; cases hmem
    | some indices =>
      rw [hb] at hmem
      have hpred := (List.mem_filter.mp hmem).2
      cases hs : st.sessions.get? idx with
      | none => rw [hs] at hpred; cases hpred
      | some s =>
        rw [hs] at hpred
        refine ⟨s, by rw [← List.get?_eq_getElem?]; exact hs, ?_⟩
        simpa [Session.is_active] using hpred

/-- Witness for claim C4: removing a registered Working session at a
concrete state leaves it in the table with status Disconnected. -/
theorem claim_C4_witness :
    (AppState.remove_session
        { workspaces := [⟨0, "/w/p", "p", "main"⟩]
          sessions := [{ Session.new "claude:a" 0 AiTool.Claude 3 with
                           status := SessionStatus.Working }]
          session_map := [("claude:a", 0)]
          sessions_by_workspace := [(0, [0])]
          status_message := none } "claude:a" 9).sessions[0]? =
      some { Session.new "claude:a" 0 AiTool.Claude 3 with
               status := SessionStatus.Disconnected, updated_at := 9 } :=
  (claim_C4 _ "claude:a" 9).2.1 0
    { Session.new "claude:a" 0 AiTool.Claude 3 with status := SessionStatus.Working }
    (by decide) (by decide)

/-! ## Claim C2: what a workspace rescan actually touches -/

/-- Claim C2 (amended): `scan_workspaces` replaces the workspace list with
the freshly scanned, path-sorted list and rebuilds only the render tree; it
leaves the session table, the external-id index and the per-workspace
index unchanged, so no session is re-indexed, dropped or hidden. -/
theorem claim_C2 (st : AppState) (found : List Workspace) :
    (st.scan_workspaces found).sessions = st.sessions ∧
    (st.scan_workspaces found).session_map = st.session_map ∧
    (st.scan_workspaces found).sessions_by_workspace = st.sessions_by_workspace ∧
    (st.scan_workspaces found).workspaces = sortByPath found :=
  ⟨rfl, rfl, rfl, rfl⟩

/-- Counterexample to claim C2 as stated: register a session on the second
of two workspaces, then rescan so that only the first workspace survives.
The session still records workspace index 1 although only one workspace is
live, and it is still surfaced by `sessions_for_workspace 1` instead of
being hidden: the indices were not rebuilt. -/
theorem counter_C2 :
    ((AppState.scan_workspaces
        (AppState.register_session none
          { workspaces := [⟨0, "/r/alpha", "alpha", "main"⟩,
                           ⟨1, "/r/beta", "beta", "main"⟩]
            sessions := []
            session_map := []
            sessions_by_workspace := []
            status_message := none }
          "claude:s" "/r/beta" AiTool.Claude none 0).1
        [⟨0, "/r/alpha", "alpha", "main"⟩]).workspaces.length = 1) ∧
    ((AppState.scan_workspaces
        (AppState.register_session none
          { workspaces := [⟨0, "/r/alpha", "alpha", "main"⟩,
                           ⟨1, "/r/beta", "beta", "main"⟩]
            sessions := []
            session_map := []
            sessions_by_workspace := []
            status_message := none }
          "claude:s" "/r/beta" AiTool.Claude none 0).1
        [⟨0, "/r/alpha", "alpha", "main"⟩]).sessions[0]?.map (·.workspace_index)
      = some 1) ∧
    ((AppState.scan_workspaces
        (AppState.register_session none
          { workspaces := [⟨0, "/r/alpha", "alpha", "main"⟩,
                           ⟨1, "/r/beta", "beta", "main"⟩]
            sessions := []
            session_map := []
            sessions_by_workspace := []
            status_message := none }
          "claude:s" "/r/beta" AiTool.Claude none 0).1
        [⟨0, "/r/alpha", "alpha", "main"⟩]).sessions_for_workspace 1 = [0]) := by
  decide

/-! ## Claim C10: re-registering an existing session -/

/-- Claim C10: when `register_session` hits an existing external id whose
project path matches a known workspace, it returns the existing index,
unconditionally resets the session status to Idle, overwrites its pane id,
touches `updated_at`, and leaves `external_id`, `workspace_index`, `tool`,
`summary`, `current_task` and `created_at` unchanged; the rest of the table
and the indices are untouched. -/
theorem claim_C10 (home : Option String) (st : AppState)
    (external_id project_path : String) (tool : AiTool) (pane_id : Option Nat)
    (now : Nat) (wi si : Nat) (s : Session)
    (hw : st.find_workspace_by_path home project_path = some wi)
    (hm : mapGet st.session_map external_id = some si)
    (hs : st.sessions[si]? = some s) :
    (st.register_session home external_id project_path tool pane_id now).2 = some si ∧
    (st.register_session home external_id project_path tool pane_id now).1.sessions[si]?
      = some { s with status := SessionStatus.Idle, pane_id := pane_id, updated_at := now } ∧
    (∃ s', (st.register_session home external_id project_path tool pane_id now).1.sessions[si]?
        = some s' ∧
      s'.status = SessionStatus.Idle ∧ s'.pane_id = pane_id ∧
      s'.external_id = s.external_id ∧ s'.workspace_index = s.workspace_index ∧
      s'.tool = s.tool ∧ s'.summary = s.summary ∧
      s'.current_task = s.current_task ∧ s'.created_at = s.created_at) ∧
    (st.register_session home external_id project_path tool pane_id now).1.session_map
      = st.session_map ∧
    (st.register_session home external_id project_path tool pane_id now).1.sessions_by_workspace
      = st.sessions_by_workspace ∧
    (st.register_session home external_id project_path tool pane_id now).1.workspaces
      = st.workspaces ∧
    (st.register_session home external_id project_path tool pane_id now).1.sessions.length
      = st.sessions.length ∧
    (∀ j, j ≠ si →
      (st.register_session home external_id project_path tool pane_id now).1.sessions[j]?
        = st.sessions[j]?) := by
  have hreg : st.register_session home external_id project_path tool pane_id now =
      ({ st with sessions := listModify st.sessions si (fun s =>
          { s with
              status := SessionStatus.Idle
              pane_id := pane_id
              updated_at := now }) },
        some si) := by
    unfold AppState.register_session
    rw [hw, hm]
  rw [hreg]
  refine ⟨rfl, ?_, ?_, rfl, rfl, rfl, listModify_length _ _ _, ?_⟩
  · show (listModify st.sessions si _)[si]? = _
    rw [listModify_getElem?, if_pos rfl, hs]
    rfl
  · refine ⟨{ s with status := SessionStatus.Idle, pane_id := pane_id, updated_at := now },
      ?_, rfl, rfl, rfl, rfl, rfl, rfl, rfl, rfl⟩
    show (listModify st.sessions si _)[si]? = _
    rw [listModify_getElem?, if_pos rfl, hs]
    rfl
  · intro j hj
    show (listModify st.sessions si _)[j]? = _
    rw [listModify_getElem?, if_neg (fun h => hj h.symm)]

/-- Witness for claim C10: re-registering a Working session with a new pane
id at a concrete state resets it to Idle with that pane id. -/
theorem claim_C10_witness :
    ((AppState.register_session none
        { workspaces := [⟨0, "/w/p", "p", "main"⟩]
          sessions := [{ Session.new "claude:a" 0 AiTool.Claude 3 with
                           status := SessionStatus.Working,
                           summary := some "busy" }]
          session_map := [("claude:a", 0)]
          sessions_by_workspace := [(0, [0])]
          status_message := none }
        "claude:a" "/w/p" AiTool.Claude (some 7) 9).2 = some 0) ∧
    ((AppState.register_session none
        { workspaces := [⟨0, "/w/p", "p", "main"⟩]
          sessions := [{ Session.new "claude:a" 0 AiTool.Claude 3 with
                           status := SessionStatus.Working,
                           summary := some "busy" }]
          session_map := [("claude:a", 0)]
          sessions_by_workspace := [(0, [0])]
          status_message := none }
        "claude:a" "/w/p" AiTool.Claude (some 7) 9).1.sessions[0]? =
      some { Session.new "claude:a" 0 AiTool.Claude 3 with
               status := SessionStatus.Idle, summary := some "busy",
               pane_id := some 7, updated_at := 9 }) :=
  let h := claim_C10 none
    { workspaces := [⟨0, "/w/p", "p", "main"⟩]
      sessions := [{ Session.new "claude:a" 0 AiTool.Claude 3 with
                       status := SessionStatus.Working,
                       summary := some "busy" }]
      session_map := [("claude:a", 0)]
      sessions_by_workspace := [(0, [0])]
      status_message := none }
    "claude:a" "/w/p" AiTool.Claude (some 7) 9 0 0
    { Session.new "claude:a" 0 AiTool.Claude 3 with
        status := SessionStatus.Working, summary := some "busy" }
    (by decide) (by decide) (by decide)
  ⟨h.1, h.2.1⟩

/-! ## Logwatch schema (logwatch/schema.rs) -/

/-- Embedding of `logwatch::StatusState`. -/
inductive StatusState where
  | Working
  | Waiting
  | Completed
  | Error
  | Idle
  | Disconnected
deriving DecidableEq, Repr

/-- Embedding of `logwatch::StatusDetail`. -/
inductive StatusDetail where
  | Thinking
  | ExecutingTool
  | WritingCode
  | UserInput
  | Confirmation
  | Success
  | Partial
  | ApiError
  | ToolError
  | Inactive
  | SessionEnded
deriving DecidableEq, Repr

/-- Embedding of `JsonlSessionState`. -/
structure JsonlSessionState where
  last_assistant_text : Option String
  last_user_input : Option String
  last_tool_name : Option String
  state_detail : StatusDetail
deriving DecidableEq, Repr

/-- Embedding of `logwatch::SessionStatus` (the `progress` and `context`
payloads are never populated by the embedded code paths and are omitted;
`last_activity` is a `Nat` timestamp). -/
structure LogSessionStatus where
  session_id : Option String
  project_path : Option String
  tool : Option String
  status : StatusState
  state_detail : StatusDetail
  summary : Option String
  current_task : Option String
  last_activity : Option Nat
  error : Option String
deriving DecidableEq, Repr

/-- Embedding of `ClaudeSession` (chrono timestamps as `Nat`). -/
structure ClaudeSession where
  session_id : String
  external_id : String
  project_path : String
  summary : Option String
  message_count : Nat
  created : Nat
  modified : Nat
  git_branch : Option String
  is_active : Bool
  jsonl_state : Option JsonlSessionState
deriving DecidableEq, Repr

/-! ## Claim C3: matching running Claude processes to transcripts
(main.rs run_logwatch polling loop) -/

/-- Embedding of the per-workspace matching loop of `run_logwatch`: walk
the candidate sessions (already sorted newest first by `get_sessions`),
keeping a running `matched` count; a session is emitted when it is capped
below the process count `n` and either its id matches a running process or
fewer resume ids than processes exist. -/
def matchLoop (running_session_ids : List String) (n : Nat) :
    List ClaudeSession → Nat → List ClaudeSession
  | [], _ => []
  | session :: rest, matched =>
    let is_running := running_session_ids.any (fun sid => session.session_id == sid)
    let should_include := is_running ||
      (decide (matched < n) && decide (running_session_ids.length < n))
    if should_include && decide (matched < n) then
      session :: matchLoop running_session_ids n rest (matched + 1)
    else
      matchLoop running_session_ids n rest matched

/-- The sessions selected for status emission on one poll tick for one
workspace path. -/
def matchSessions (sessions : List ClaudeSession) (running_session_ids : List String)
    (n : Nat) : List ClaudeSession :=
  matchLoop running_session_ids n sessions 0

theorem matchLoop_closed_form (ids : List String) (n : Nat) :
    ∀ (l : List ClaudeSession) (matched : Nat),
      matchLoop ids n l matched =
        if ids.length < n then l.take (n - matched)
        else (l.filter (fun s => ids.any (fun sid => s.session_id == sid))).take
          (n - matched) := by
  intro l
  induction l with
  | nil => intro matched; simp [matchLoop]
  | cons session rest ih =>
    intro matched
    by_cases hmatched : matched < n
    · have hsub : n - matched = (n - (matched + 1)) + 1 := by omega
      by_cases hlen : ids.length < n
      · have hinc : matchLoop ids n (session :: rest) matched =
            session :: matchLoop ids n rest (matched + 1) := by
          simp [matchLoop, hmatched, hlen]
        rw [hinc, ih, if_pos hlen, if_pos hlen, hsub, List.take_succ_cons]
      · by_cases hrun : ids.any (fun sid => session.session_id == sid)
        · have hinc : matchLoop ids n (session :: rest) matched =
              session :: matchLoop ids n rest (matched + 1) := by
            simp [matchLoop, hmatched, hlen, hrun]
          rw [hinc, ih, if_neg hlen, if_neg hlen, hsub]
          simp [List.filter_cons, hrun]
        · have hrun' : (ids.any fun sid => session.session_id == sid) = false :=
            Bool.eq_false_iff.mpr hrun
          have hskip : matchLoop ids n (session :: rest) matched =
              matchLoop ids n rest matched := by
            simp [matchLoop, hmatched, hlen, hrun']
          rw [hskip, ih, if_neg hlen, if_neg hlen]
          simp [List.filter_cons, hrun']
    · have hzero : n - matched = 0 := by omega
      have hskip : matchLoop ids n (session :: rest) matched =
          matchLoop ids n rest matched := by
        simp [matchLoop, hmatched]
      rw [hskip, ih, hzero]
      by_cases hlen : ids.length < n <;> simp [hlen, hzero]

/-- Claim C3 (amended): scanning the candidates in modification-time
descending order, the loop keeps at most `n` sessions; when fewer resume
ids than running processes exist it simply takes the `n` newest candidates
regardless of id, and otherwise it takes the first `n` candidates whose
uuid is among the resume ids.  In particular a candidate whose uuid is in
`ids` is not always selected, and no head-fill happens once the resume ids
are at least as numerous as the processes. -/
theorem claim_C3 (sessions : List ClaudeSession) (ids : List String) (n : Nat) :
    matchSessions sessions ids n =
      if ids.length < n then sessions.take n
      else (sessions.filter (fun s => ids.any (fun sid => s.session_id == sid))).take n := by
  unfold matchSessions
  rw [matchLoop_closed_form]
  simp

/-- A minimal candidate record for the counterexample. -/
def csNamed (sid : String) (modified : Nat) : ClaudeSession :=
  { session_id := sid
    external_id := "claude:" ++ sid
    project_path := "/w/p"
    summary := none
    message_count := 0
    created := modified
    modified := modified
    git_branch := none
    is_active := true
    jsonl_state := none }

/-- Counterexample to claim C3 as stated: two processes (one with resume id
u), three candidates ordered newest first as a, b, u.  The claim demands
that u (its uuid is in ids) be selected; the loop instead fills both slots
with a and b and never selects u. -/
theorem counter_C3 :
    ("u" ∈ ["u"]) ∧
    (matchSessions [csNamed "a" 30, csNamed "b" 20, csNamed "u" 10] ["u"] 2).map
      (·.session_id) = ["a", "b"] ∧
    ¬ ("u" ∈ (matchSessions [csNamed "a" 30, csNamed "b" 20, csNamed "u" 10] ["u"] 2).map
      (·.session_id)) := by
  decide

/-! ## Claim C5: JSONL tail parsing and rendered status
(logwatch/claude_sessions.rs) -/

/-- Embedding of `truncate_text`: cut to `max_chars` characters, appending
three dots when shortened. -/
def truncate_text (s : String) (max_chars : Nat) : String :=
  if s.length > max_chars then
    String.mk (s.data.take (max_chars - 3)) ++ "..."
  else s

/-- The entry discriminator: `value.get("type").and_then(as_str)` with
empty-string default. -/
def jsonEntryType (v : Json) : String :=
  ((v.get "type").bind Json.asStr).getD ""

/-- The content array of an entry: `value.get("message")` then
`get("content")` then `as_array`. -/
def jsonContentItems (v : Json) : Option (List Json) :=
  ((v.get "message").bind (fun m => m.get "content")).bind Json.asArr

/-- The item discriminator inside a content array. -/
def jsonItemType (item : Json) : String :=
  ((item.get "type").bind Json.asStr).getD ""

/-- Mutable-variable bundle of the backwards walk in `parse_jsonl_tail`:
last assistant text, last user input, last tool name, last entry type and
last content kind, each set at most once. -/
structure TailAcc where
  text : Option String
  user : Option String
  tool : Option String
  entry : Option String
  kind : Option String
deriving DecidableEq, Repr

/-- One content item of an assistant entry (the body of the reversed
per-item loop). -/
def assistantItemStep (acc : TailAcc) (item : Json) : TailAcc :=
  match jsonItemType item with
  | "tool_use" =>
    let acc1 := if acc.tool.isNone
      then { acc with tool := (item.get "name").bind Json.asStr }
      else acc
    if acc1.kind.isNone then
      { acc1 with kind := some "tool_use", entry := some "assistant" }
    else acc1
  | "text" =>
    let acc1 := if acc.text.isNone then
        let t := (((item.get "text").bind Json.asStr).getD "").trim
        if t ≠ "" then { acc with text := some (truncate_text t 50) } else acc
      else acc
    if acc1.kind.isNone then
      { acc1 with kind := some "text", entry := some "assistant" }
    else acc1
  | "thinking" =>
    if acc.kind.isNone then
      { acc with kind := some "thinking", entry := some "assistant" }
    else acc
  | _ => acc

/-- Processing of one assistant entry: iterate the content items in
reverse. -/
def processAssistant (e : Json) (acc : TailAcc) : TailAcc :=
  match jsonContentItems e with
  | some items => items.reverse.foldl assistantItemStep acc
  | none => acc

/-- One content item of a user entry (text capture only). -/
def userTextStep (acc : TailAcc) (item : Json) : TailAcc :=
  if jsonItemType item = "text" ∧ acc.user.isNone then
    let t := (((item.get "text").bind Json.asStr).getD "").trim
    if t ≠ "" ∧ ¬ (("[Request interrupted".data).isPrefixOf t.data) then
      { acc with user := some (truncate_text t 80) }
    else acc
  else acc

/-- Whether some item of the (optional) content array is a tool result. -/
def hasToolResult (content : Option (List Json)) : Bool :=
  match content with
  | some items =>
    items.any (fun i => ((i.get "type").bind Json.asStr) == some "tool_result")
  | none => false

/-- Processing of one user entry: capture the last real user input, then
classify the entry as tool_result or user_text when no kind is known yet. -/
def processUser (e : Json) (acc : TailAcc) : TailAcc :=
  let content := jsonContentItems e
  let acc1 := match content with
    | some items => items.foldl userTextStep acc
    | none => acc
  if acc1.kind.isNone then
    if hasToolResult content then
      { acc1 with kind := some "tool_result", entry := some "user" }
    else
      { acc1 with kind := some "user_text", entry := some "user" }
  else acc1

/-- The early-exit condition of the backwards walk. -/
def tailDone (acc : TailAcc) : Bool :=
  acc.text.isSome && acc.user.isSome && acc.tool.isSome && acc.entry.isSome

/-- The backwards walk over the parsed lines (the input list is already
reversed; unrecognised entry types are skipped and do not trigger the
early-exit check, mirroring the `continue`). -/
def tailWalk (acc : TailAcc) : List Json → TailAcc
  | [] => acc
  | e :: rest =>
    if jsonEntryType e = "assistant" then
      let acc1 := processAssistant e acc
      if tailDone acc1 then acc1 else tailWalk acc1 rest
    else if jsonEntryType e = "user" then
      let acc1 := processUser e acc
      if tailDone acc1 then acc1 else tailWalk acc1 rest
    else tailWalk acc rest

/-- The final state-detail match of `parse_jsonl_tail` on the pair of the
last entry type and last content kind. -/
def stateDetailOf (entry kind : Option String) : StatusDetail :=
  if entry = some "assistant" ∧ kind = some "tool_use" then StatusDetail.ExecutingTool
  else if entry = some "assistant" ∧ kind = some "text" then StatusDetail.Thinking
  else if entry = some "assistant" ∧ kind = some "thinking" then StatusDetail.Thinking
  else if entry = some "user" ∧ kind = some "tool_result" then StatusDetail.Thinking
  else if entry = some "user" ∧ kind = some "user_text" then StatusDetail.Thinking
  else StatusDetail.Inactive

/-- Embedding of `parse_jsonl_tail` on the parsed JSON lines of the tail
(file IO, the 32 KiB seek and the skipping of unparseable lines happen
before this point; `entries` is in file order and is walked backwards). -/
def parse_jsonl_tail (entries : List Json) : JsonlSessionState :=
  let acc := tailWalk ⟨none, none, none, none, none⟩ entries.reverse
  { last_assistant_text := acc.text
    last_user_input := acc.user
    last_tool_name := acc.tool
    state_detail := stateDetailOf acc.entry acc.kind }

/-- Specification side: the kind of the first recognised item of an
assistant content list (already reversed when applied). -/
def assistantKindSpec : List Json → Option String
  | [] => none
  | i :: rest =>
    let t := jsonItemType i
    if t = "tool_use" ∨ t = "text" ∨ t = "thinking" then some t
    else assistantKindSpec rest

/-- Specification side: the (entry type, content kind) classification of a
single entry; `none` for entries the walk skips. -/
def entryClass (e : Json) : Option (String × String) :=
  if jsonEntryType e = "assistant" then
    (assistantKindSpec ((jsonContentItems e).getD []).reverse).map
      (fun k => ("assistant", k))
  else if jsonEntryType e = "user" then
    some ("user",
      if hasToolResult (jsonContentItems e) then "tool_result" else "user_text")
  else none

/-- Specification side: the classification of the most recent recognised
entry. -/
def mostRecentClass (entries : List Json) : Option (String × String) :=
  entries.reverse.findSome? entryClass

/-- Specification side: the state-detail table of the spec, applied to the
most recent recognised entry classification. -/
def detailOfClass (c : Option (String × String)) : StatusDetail :=
  if c = some ("assistant", "tool_use") then StatusDetail.ExecutingTool
  else if c = some ("assistant", "text") then StatusDetail.Thinking
  else if c = some ("assistant", "thinking") then StatusDetail.Thinking
  else if c = some ("user", "tool_result") then StatusDetail.Thinking
  else if c = some ("user", "user_text") then StatusDetail.Thinking
  else StatusDetail.Inactive

/-- Embedding of `ClaudeSession::to_session_status`. -/
def ClaudeSession.to_session_status (s : ClaudeSession) : LogSessionStatus :=
  match s.jsonl_state with
  | some jsonl =>
    let status_detail : StatusState × StatusDetail :=
      if s.is_active then
        if jsonl.state_detail = StatusDetail.UserInput then
          (StatusState.Waiting, StatusDetail.UserInput)
        else (StatusState.Working, jsonl.state_detail)
      else (StatusState.Idle, StatusDetail.Inactive)
    let summary : Option String :=
      if s.is_active then
        if jsonl.state_detail = StatusDetail.ExecutingTool then
          jsonl.last_tool_name.map (fun t => "Running " ++ t)
        else
          match jsonl.last_assistant_text with
          | some t => some t
          | none => s.summary
      else s.summary
    let current_task : Option String :=
      if s.is_active then jsonl.last_user_input else none
    { session_id := some s.session_id
      project_path := some s.project_path
      tool := some "claude"
      status := status_detail.1
      state_detail := status_detail.2
      summary := summary
      current_task := current_task
      last_activity := some s.modified
      error := none }
  | none =>
    { session_id := some s.session_id
      project_path := some s.project_path
      tool := some "claude"
      status := if s.is_active then StatusState.Working else StatusState.Idle
      state_detail := if s.is_active then StatusDetail.Thinking else StatusDetail.Inactive
      summary := s.summary
      current_task := none
      last_activity := some s.modified
      error := none }

theorem userTextStep_keeps (acc : TailAcc) (item : Json) :
    (userTextStep acc item).kind = acc.kind ∧ (userTextStep acc item).entry = acc.entry := by
  constructor <;>
    simp [userTextStep, apply_ite TailAcc.kind, apply_ite TailAcc.entry]

theorem foldl_userTextStep_keeps (items : List Json) :
    ∀ acc : TailAcc,
      (items.foldl userTextStep acc).kind = acc.kind ∧
      (items.foldl userTextStep acc).entry = acc.entry := by
  induction items with
  | nil => intro acc; exact ⟨rfl, rfl⟩
  | cons i rest ih =>
    intro acc
    rw [List.foldl_cons]
    refine ⟨(ih _).1.trans (userTextStep_keeps acc i).1,
      (ih _).2.trans (userTextStep_keeps acc i).2⟩

theorem assistantItemStep_keeps (acc : TailAcc) (item : Json) (h : acc.kind.isSome) :
    (assistantItemStep acc item).kind = acc.kind ∧
    (assistantItemStep acc item).entry = acc.entry := by
  obtain ⟨k, hk⟩ := Option.isSome_iff_exists.mp h
  unfold assistantItemStep
  split <;>
    simp [hk, apply_ite TailAcc.kind, apply_ite TailAcc.entry]

theorem foldl_assistantItemStep_keeps (items : List Json) :
    ∀ acc : TailAcc, acc.kind.isSome →
      (items.foldl assistantItemStep acc).kind = acc.kind ∧
      (items.foldl assistantItemStep acc).entry = acc.entry := by
  induction items with
  | nil => intro acc _; exact ⟨rfl, rfl⟩
  | cons i rest ih =>
    intro acc h
    rw [List.foldl_cons]
    have hstep := assistantItemStep_keeps acc i h
    have hsome : (assistantItemStep acc i).kind.isSome := by rw [hstep.1]; exact h
    exact ⟨(ih _ hsome).1.trans hstep.1, (ih _ hsome).2.trans hstep.2⟩

theorem processAssistant_keeps (e : Json) (acc : TailAcc) (h : acc.kind.isSome) :
    (processAssistant e acc).kind = acc.kind ∧
    (processAssistant e acc).entry = acc.entry := by
  unfold processAssistant
  cases jsonContentItems e with
  | none => exact ⟨rfl, rfl⟩
  | some items => exact foldl_assistantItemStep_keeps items.reverse acc h

theorem processUser_keeps (e : Json) (acc : TailAcc) (h : acc.kind.isSome) :
    (processUser e acc).kind = acc.kind ∧
    (processUser e acc).entry = acc.entry := by
  obtain ⟨k, hk⟩ := Option.isSome_iff_exists.mp h
  cases hc : jsonContentItems e with
  | none => simp [processUser, hc, hk]
  | some items =>
    have hfold := foldl_userTextStep_keeps items acc
    simp [processUser, hc, hfold.1, hfold.2, hk]

theorem tailWalk_keeps (L : List Json) :
    ∀ acc : TailAcc, acc.kind.isSome →
      (tailWalk acc L).kind = acc.kind ∧ (tailWalk acc L).entry = acc.entry := by
  induction L with
  | nil => intro acc _; exact ⟨rfl, rfl⟩
  | cons e rest ih =>
    intro acc h
    by_cases ha : jsonEntryType e = "assistant"
    · have hw : tailWalk acc (e :: rest) =
          (if tailDone (processAssistant e acc) then processAssistant e acc
           else tailWalk (processAssistant e acc) rest) := by
        simp only [tailWalk]
        rw [if_pos ha]
      have hstep := processAssistant_keeps e acc h
      have hsome : (processAssistant e acc).kind.isSome := by rw [hstep.1]; exact h
      rw [hw]
      by_cases hd : tailDone (processAssistant e acc)
      · simp only [hd, if_true]; exact hstep
      · simp only [hd, if_false]
        exact ⟨(ih _ hsome).1.trans hstep.1, (ih _ hsome).2.trans hstep.2⟩
    · by_cases hu : jsonEntryType e = "user"
      · have hw : tailWalk acc (e :: rest) =
            (if tailDone (processUser e acc) then processUser e acc
             else tailWalk (processUser e acc) rest) := by
          simp only [tailWalk]
          rw [if_neg ha, if_pos hu]
        have hstep := processUser_keeps e acc h
        have hsome : (processUser e acc).kind.isSome := by rw [hstep.1]; exact h
        rw [hw]
        by_cases hd : tailDone (processUser e acc)
        · simp only [hd, if_true]; exact hstep
        · simp only [hd, if_false]
          exact ⟨(ih _ hsome).1.trans hstep.1, (ih _ hsome).2.trans hstep.2⟩
      · have hw : tailWalk acc (e :: rest) = tailWalk acc rest := by
          simp only [tailWalk]
          rw [if_neg ha, if_neg hu]
        rw [hw]
        exact ih acc h

theorem assistantItemStep_sets (acc : TailAcc) (item : Json)
    (hk : acc.kind = none) (he : acc.entry = none) :
    ((assistantItemStep acc item).kind, (assistantItemStep acc item).entry) =
      (if jsonItemType item = "tool_use" ∨ jsonItemType item = "text" ∨
          jsonItemType item = "thinking" then
        (some (jsonItemType item), some "assistant")
      else (none, none)) := by
  unfold assistantItemStep
  split <;>
    simp_all [apply_ite TailAcc.kind, apply_ite TailAcc.entry]

theorem foldl_assistantItemStep_sets (items : List Json) :
    ∀ acc : TailAcc, acc.kind = none → acc.entry = none →
      ((items.foldl assistantItemStep acc).kind,
       (items.foldl assistantItemStep acc).entry) =
        (match assistantKindSpec items with
         | some k => (some k, some "assistant")
         | none => (none, none)) := by
  induction items with
  | nil =>
    intro acc hk he
    simp [assistantKindSpec, hk, he]
  | cons i rest ih =>
    intro acc hk he
    rw [List.foldl_cons]
    have hstep := assistantItemStep_sets acc i hk he
    by_cases hrec : jsonItemType i = "tool_use" ∨ jsonItemType i = "text" ∨
        jsonItemType i = "thinking"
    · rw [if_pos hrec] at hstep
      have hk' : (assistantItemStep acc i).kind = some (jsonItemType i) :=
        congrArg Prod.fst hstep
      have he' : (assistantItemStep acc i).entry = some "assistant" :=
        congrArg Prod.snd hstep
      have hsome : (assistantItemStep acc i).kind.isSome := by rw [hk']; rfl
      have hkeep := foldl_assistantItemStep_keeps rest _ hsome
      rw [hkeep.1, hkeep.2, hk', he']
      have hspec : assistantKindSpec (i :: rest) = some (jsonItemType i) := by
        simp only [assistantKindSpec]
        rw [if_pos hrec]
      rw [hspec]
    · rw [if_neg hrec] at hstep
      have hk' : (assistantItemStep acc i).kind = none := congrArg Prod.fst hstep
      have he' : (assistantItemStep acc i).entry = none := congrArg Prod.snd hstep
      rw [ih _ hk' he']
      have hspec : assistantKindSpec (i :: rest) = assistantKindSpec rest := by
        simp only [assistantKindSpec]
        rw [if_neg hrec]
      rw [hspec]

theorem processAssistant_sets (e : Json) (acc : TailAcc)
    (hk : acc.kind = none) (he : acc.entry = none) :
    ((processAssistant e acc).kind, (processAssistant e acc).entry) =
      (match assistantKindSpec ((jsonContentItems e).getD []).reverse with
       | some k => (some k, some "assistant")
       | none => (none, none)) := by
  unfold processAssistant
  cases hc : jsonContentItems e with
  | none => simp [assistantKindSpec, hk, he]
  | some items => simpa using foldl_assistantItemStep_sets items.reverse acc hk he

theorem processUser_sets (e : Json) (acc : TailAcc)
    (hk : acc.kind = none) (_he : acc.entry = none) :
    (processUser e acc).kind =
      some (if hasToolResult (jsonContentItems e) then "tool_result" else "user_text") ∧
    (processUser e acc).entry = some "user" := by
  cases hc : jsonContentItems e with
  | none =>
    constructor <;>
      simp [processUser, hc, hk, apply_ite TailAcc.kind, apply_ite TailAcc.entry,
        apply_ite (Option.some : String → Option String)]
  | some items =>
    have hfold := foldl_userTextStep_keeps items acc
    constructor <;>
      simp [processUser, hc, hk, hfold.1, hfold.2,
        apply_ite TailAcc.kind, apply_ite TailAcc.entry,
        apply_ite (Option.some : String → Option String)]

theorem stateDetailOf_eq_detailOfClass (t k : String) :
    stateDetailOf (some t) (some k) = detailOfClass (some (t, k)) := by
  simp [stateDetailOf, detailOfClass]

theorem tailWalk_cons_assistant (e : Json) (rest : List Json) (acc : TailAcc)
    (h : jsonEntryType e = "assistant") :
    tailWalk acc (e :: rest) =
      (if tailDone (processAssistant e acc) then processAssistant e acc
       else tailWalk (processAssistant e acc) rest) := by
  simp only [tailWalk]
  rw [if_pos h]

theorem tailWalk_cons_user (e : Json) (rest : List Json) (acc : TailAcc)
    (h : jsonEntryType e = "user") :
    tailWalk acc (e :: rest) =
      (if tailDone (processUser e acc) then processUser e acc
       else tailWalk (processUser e acc) rest) := by
  simp only [tailWalk]
  rw [if_neg (by rw [h]; decide), if_pos h]

theorem entryClass_assistant (e : Json) (h : jsonEntryType e = "assistant") :
    entryClass e =
      (assistantKindSpec ((jsonContentItems e).getD []).reverse).map
        (fun k => ("assistant", k)) := by
  unfold entryClass
  rw [if_pos h]

theorem entryClass_user (e : Json) (h : jsonEntryType e = "user") :
    entryClass e =
      some ("user",
        if hasToolResult (jsonContentItems e) then "tool_result" else "user_text") := by
  unfold entryClass
  rw [if_neg (by rw [h]; decide), if_pos h]

theorem entryClass_other (e : Json) (h1 : jsonEntryType e ≠ "assistant")
    (h2 : jsonEntryType e ≠ "user") : entryClass e = none := by
  unfold entryClass
  rw [if_neg h1, if_neg h2]

theorem tailWalk_detail (L : List Json) :
    ∀ acc : TailAcc, acc.kind = none → acc.entry = none →
      stateDetailOf (tailWalk acc L).entry (tailWalk acc L).kind =
        detailOfClass (L.findSome? entryClass) := by
  induction L with
  | nil =>
    intro acc hk he
    rw [show tailWalk acc [] = acc from rfl, hk, he]
    simp [stateDetailOf, detailOfClass]
  | cons e rest ih =>
    intro acc hk he
    by_cases ha : jsonEntryType e = "assistant"
    · rw [tailWalk_cons_assistant e rest acc ha, List.findSome?_cons,
        entryClass_assistant e ha]
      have hsets := processAssistant_sets e acc hk he
      cases hspec : assistantKindSpec ((jsonContentItems e).getD []).reverse with
      | some k =>
        rw [hspec] at hsets
        have hk' : (processAssistant e acc).kind = some k := congrArg Prod.fst hsets
        have he' : (processAssistant e acc).entry = some "assistant" :=
          congrArg Prod.snd hsets
        have hsome : (processAssistant e acc).kind.isSome := by rw [hk']; rfl
        by_cases hd : tailDone (processAssistant e acc)
        · rw [if_pos hd, hk', he']
          simp [stateDetailOf_eq_detailOfClass]
        · rw [if_neg hd]
          have hkeep := tailWalk_keeps rest _ hsome
          rw [hkeep.1, hkeep.2, hk', he']
          simp [stateDetailOf_eq_detailOfClass]
      | none =>
        rw [hspec] at hsets
        have hk' : (processAssistant e acc).kind = none := congrArg Prod.fst hsets
        have he' : (processAssistant e acc).entry = none := congrArg Prod.snd hsets
        have hd : tailDone (processAssistant e acc) = false := by
          unfold tailDone
          rw [he']
          simp
        rw [hd]
        simp only [Bool.false_eq_true, if_false, Option.map_none]
        exact ih _ hk' he'
    · by_cases hu : jsonEntryType e = "user"
      · rw [tailWalk_cons_user e rest acc hu, List.findSome?_cons,
          entryClass_user e hu]
        have hsets := processUser_sets e acc hk he
        have hsome : (processUser e acc).kind.isSome := by rw [hsets.1]; rfl
        by_cases hd : tailDone (processUser e acc)
        · rw [if_pos hd, hsets.1, hsets.2]
          simp [stateDetailOf_eq_detailOfClass]
        · rw [if_neg hd]
          have hkeep := tailWalk_keeps rest _ hsome
          rw [hkeep.1, hkeep.2, hsets.1, hsets.2]
          simp [stateDetailOf_eq_detailOfClass]
      · have hw : tailWalk acc (e :: rest) = tailWalk acc rest := by
          simp only [tailWalk]
          rw [if_neg ha, if_neg hu]
        rw [hw, List.findSome?_cons, entryClass_other e ha hu]
        exact ih acc hk he

/-- Claim C5: the derived state detail of a parsed transcript tail equals
the spec table applied to the classification of the most recent recognised
entry, and the rendered status of a session with parsed JSONL state is
Waiting exactly when the session is active with detail UserInput, Working
when active with any other detail, and Idle with Inactive detail when
inactive. -/
theorem claim_C5 (entries : List Json) (s : ClaudeSession) (j : JsonlSessionState)
    (hj : s.jsonl_state = some j) :
    ((parse_jsonl_tail entries).state_detail = detailOfClass (mostRecentClass entries)) ∧
    ((s.to_session_status.status = StatusState.Waiting) ↔
      (s.is_active = true ∧ j.state_detail = StatusDetail.UserInput)) ∧
    (s.is_active = true → j.state_detail ≠ StatusDetail.UserInput →
      s.to_session_status.status = StatusState.Working ∧
      s.to_session_status.state_detail = j.state_detail) ∧
    (s.is_active = false →
      s.to_session_status.status = StatusState.Idle ∧
      s.to_session_status.state_detail = StatusDetail.Inactive) := by
  refine ⟨?_, ?_, ?_, ?_⟩
  · unfold parse_jsonl_tail mostRecentClass
    exact tailWalk_detail entries.reverse _ rfl rfl
  · cases hact : s.is_active <;>
      by_cases hd : j.state_detail = StatusDetail.UserInput <;>
        simp [ClaudeSession.to_session_status, hj, hact, hd]
  · intro hact hd
    constructor <;> simp [ClaudeSession.to_session_status, hj, hact, hd]
  · intro hact
    constructor <;> simp [ClaudeSession.to_session_status, hj, hact]

/-- Concrete transcript tail for the claim C5 witness: a user text entry
followed by an assistant tool_use entry. -/
def exEntriesC5 : List Json :=
  [Json.obj [("type", Json.str "user"),
     ("message", Json.obj [("content",
        Json.arr [Json.obj [("type", Json.str "text"),
                            ("text", Json.str "Add auth")]])])],
   Json.obj [("type", Json.str "assistant"),
     ("message", Json.obj [("content",
        Json.arr [Json.obj [("type", Json.str "tool_use"),
                            ("name", Json.str "Bash")]])])]]

/-- Concrete parsed JSONL state for the claim C5 witness. -/
def exJsonlC5 : JsonlSessionState :=
  { last_assistant_text := none
    last_user_input := some "Add auth"
    last_tool_name := none
    state_detail := StatusDetail.UserInput }

/-- Concrete active session for the claim C5 witness. -/
def exSessionC5 : ClaudeSession :=
  { session_id := "abc"
    external_id := "claude:abc"
    project_path := "/w/p"
    summary := none
    message_count := 2
    created := 0
    modified := 50
    git_branch := none
    is_active := true
    jsonl_state := some exJsonlC5 }

/-- Witness for claim C5 at the concrete transcript tail and session. -/
theorem claim_C5_witness :
    ((parse_jsonl_tail exEntriesC5).state_detail =
      detailOfClass (mostRecentClass exEntriesC5)) ∧
    ((exSessionC5.to_session_status.status = StatusState.Waiting) ↔
      (exSessionC5.is_active = true ∧
        exJsonlC5.state_detail = StatusDetail.UserInput)) :=
  ⟨(claim_C5 exEntriesC5 exSessionC5 exJsonlC5 rfl).1,
   (claim_C5 exEntriesC5 exSessionC5 exJsonlC5 rfl).2.1⟩

/-! ## Claim C6: Kiro confirmation status (logwatch/kiro_sqlite.rs) -/

/-- Embedding of `truncate_str`: cut to `max_chars` characters counted as
characters, appending three dots when shortened. -/
def truncate_str (s : String) (max_chars : Nat) : String :=
  if s.length ≤ max_chars then s
  else String.mk (s.data.take (max_chars - 3)) ++ "..."

/-- Embedding of `PromptContent`. -/
structure PromptContent where
  prompt : Option String
deriving DecidableEq, Repr

/-- Embedding of `ToolUseResultsContent`. -/
structure ToolUseResultsContent where
  tool_use_results : Option (List Json)

/-- Embedding of `UserContentStructured`. -/
structure UserContentStructured where
  prompt : Option PromptContent
  tool_use_results : Option ToolUseResultsContent

/-- Embedding of the untagged `UserContent`. -/
inductive UserContent where
  | structured (s : UserContentStructured)
  | other (v : Json)

/-- Embedding of `UserEntry`. -/
structure UserEntry where
  content : Option UserContent

/-- Embedding of `HistoryEntry`; the `assistant` field is raw JSON. -/
structure HistoryEntry where
  user : Option UserEntry
  assistant : Option Json

/-- Embedding of `ConversationValue`. -/
structure ConversationValue where
  history : Option (List HistoryEntry)

/-- The tool-name list built by `extract_tool_use_summary`: names of the
first three tool uses, plus a plus-count marker when more exist. -/
def toolUseNames (tool_use : Json) : List String :=
  match (tool_use.get "tool_uses").bind Json.asArr with
  | some tool_uses =>
    let names := (tool_uses.take 3).filterMap
      (fun t => (t.get "name").bind Json.asStr)
    if tool_uses.length > 3 then
      names ++ ["+" ++ toString (tool_uses.length - 3)]
    else names
  | none => []

/-- The tool-name fallback summary of `extract_tool_use_summary`. -/
def confirmSummary (tool_use : Json) : String :=
  let names := toolUseNames tool_use
  if names.isEmpty then "Confirm?"
  else "Confirm: " ++ String.intercalate ", " names

/-- Embedding of `extract_tool_use_summary`: prefer a non-empty content
message truncated to 40 characters, else fall back to the tool names. -/
def extract_tool_use_summary (tool_use : Json) : String :=
  match (tool_use.get "content").bind Json.asStr with
  | some c => if c = "" then confirmSummary tool_use else truncate_str c 40
  | none => confirmSummary tool_use

/-- First line of a response content string (model of `lines().next()`;
the Rust iterator also strips a carriage return before the newline, which
no embedded input exercises). -/
def firstLine (s : String) : String :=
  (s.splitOn "\n").headD s

/-- Embedding of `extract_response_summary`. -/
def extract_response_summary (response : Json) : String :=
  match (response.get "content").bind Json.asStr with
  | some c => if c = "" then "Done" else truncate_str (firstLine c) 40
  | none => "Done"

/-- The shared user-side fallback of `determine_status_from_entry` (the
code after the assistant checks). -/
def userStatusFallback (entry : HistoryEntry) :
    StatusState × StatusDetail × Option String :=
  match entry.user with
  | some u =>
    match u.content with
    | some (UserContent.structured s) =>
      if s.tool_use_results.isSome then
        (StatusState.Working, StatusDetail.ExecutingTool, some "Running tools...")
      else
        match s.prompt with
        | some pc =>
          (StatusState.Working, StatusDetail.Thinking,
            some ((pc.prompt.map (fun p => truncate_str p 30)).getD "Thinking..."))
        | none =>
          (StatusState.Working, StatusDetail.Thinking, some "Processing...")
    | some (UserContent.other _) =>
      (StatusState.Working, StatusDetail.Thinking, some "Processing...")
    | none => (StatusState.Working, StatusDetail.Thinking, some "Processing...")
  | none => (StatusState.Working, StatusDetail.Thinking, some "Processing...")

/-- Embedding of `determine_status_from_entry`: the assistant response is
the primary indicator (ToolUse means waiting for confirmation, Response
means completed), else classify by what the user sent. -/
def determine_status_from_entry (entry : HistoryEntry) :
    StatusState × StatusDetail × Option String :=
  match entry.assistant with
  | some a =>
    match a.get "ToolUse" with
    | some tool_use =>
      (StatusState.Waiting, StatusDetail.Confirmation,
        some (extract_tool_use_summary tool_use))
    | none =>
      match a.get "Response" with
      | some response =>
        (StatusState.Completed, StatusDetail.Success,
          some (extract_response_summary response))
      | none => userStatusFallback entry
  | none => userStatusFallback entry

/-- Embedding of `parse_conversation_value` after JSON decoding: status of
the last history entry, Idle and Inactive for an absent or empty history. -/
def parse_conversation_value (conv : ConversationValue) :
    StatusState × StatusDetail × Option String :=
  match conv.history with
  | some h =>
    match h.getLast? with
    | some last_entry => determine_status_from_entry last_entry
    | none => (StatusState.Idle, StatusDetail.Inactive, none)
  | none => (StatusState.Idle, StatusDetail.Inactive, none)

/-- Concrete ToolUse payload of the spec scenario: two tool uses named
fs_read and execute_bash, and no content message. -/
def exToolUseC6 : Json :=
  Json.obj [("tool_uses",
    Json.arr [Json.obj [("name", Json.str "fs_read")],
              Json.obj [("name", Json.str "execute_bash")]])]

/-- Concrete last history entry of the spec scenario. -/
def exEntryC6 : HistoryEntry :=
  { user := some { content := some (UserContent.structured
      { prompt := some { prompt := some "test" }, tool_use_results := none }) }
    assistant := some (Json.obj [("ToolUse", exToolUseC6)]) }

/-- Concrete conversation of the spec scenario. -/
def exConvC6 : ConversationValue :=
  { history := some [exEntryC6] }

/-- Claim C6: a last history entry whose assistant contains ToolUse yields
status Waiting with detail Confirmation and the ToolUse summary; the
summary is the non-empty content message (truncated to 40 characters) when
present and otherwise the Confirm prefix with the tool names; on the
concrete scenario the summary is exactly the Confirm string for fs_read
and execute_bash. -/
theorem claim_C6 (conv : ConversationValue) (h : List HistoryEntry)
    (entry : HistoryEntry) (a tool_use : Json)
    (hh : conv.history = some h)
    (hlast : h.getLast? = some entry)
    (ha : entry.assistant = some a)
    (htu : a.get "ToolUse" = some tool_use) :
    parse_conversation_value conv =
      (StatusState.Waiting, StatusDetail.Confirmation,
        some (extract_tool_use_summary tool_use)) ∧
    (∀ c, (tool_use.get "content").bind Json.asStr = some c → c ≠ "" →
      extract_tool_use_summary tool_use = truncate_str c 40) ∧
    ((tool_use.get "content").bind Json.asStr = none →
      extract_tool_use_summary tool_use = confirmSummary tool_use) ∧
    (extract_tool_use_summary exToolUseC6 = "Confirm: fs_read, execute_bash") ∧
    (parse_conversation_value exConvC6 =
      (StatusState.Waiting, StatusDetail.Confirmation,
        some "Confirm: fs_read, execute_bash")) := by
  refine ⟨?_, ?_, ?_, by decide, by decide⟩
  · simp only [parse_conversation_value, hh, hlast,
      determine_status_from_entry, ha, htu]
  · intro c hc hne
    simp only [extract_tool_use_summary, hc]
    rw [if_neg hne]
  · intro hc
    simp only [extract_tool_use_summary, hc]

/-- Witness for claim C6 at the concrete spec scenario. -/
theorem claim_C6_witness :
    parse_conversation_value exConvC6 =
      (StatusState.Waiting, StatusDetail.Confirmation,
        some (extract_tool_use_summary exToolUseC6)) :=
  (claim_C6 exConvC6 [exEntryC6] exEntryC6
    (Json.obj [("ToolUse", exToolUseC6)]) exToolUseC6
    rfl rfl rfl rfl).1

/-! ## Claim C8: notify listener frame handling
(notify/protocol.rs, notify/server.rs) -/

/-- Embedding of `NotifyMessage` (notify/protocol.rs): the four message
types of the wire protocol. -/
inductive NotifyMessage where
  | register (session_id : String) (project_path : String) (tool : Option String)
  | status (session_id : String) (status : String) (message : Option String)
  | unregister (session_id : String)
  | tab_focus (tab_name : String)
deriving DecidableEq, Repr

/-- Embedding of `WorkspaceStatus` (workspace/state.rs). -/
inductive WorkspaceStatus where
  | Idle
  | Working
  | NeedsInput
  | Success
  | Error
  | Disconnected
deriving DecidableEq, Repr

/-- Embedding of `WorkspaceStatus::from_str`. -/
def WorkspaceStatus.from_str (s : String) : WorkspaceStatus :=
  let l := s.toLower
  if l = "working" then WorkspaceStatus.Working
  else if l = "idle" then WorkspaceStatus.NeedsInput
  else if l = "success" then WorkspaceStatus.Success
  else if l = "error" then WorkspaceStatus.Error
  else WorkspaceStatus.NeedsInput

/-- The internal events produced by the notify listener (the event names
follow notify/server.rs; the tab-focus event is required by the spec for
the fourth message type, whose translation arm is absent from the stale
server revision in the tree). -/
inductive NotifyEvent where
  | workspaceRegister (session_id : String) (project_path : String)
      (pane_id : Option Nat)
  | workspaceUpdate (session_id : String) (status : WorkspaceStatus)
      (message : Option String)
  | workspaceUnregister (session_id : String)
  | tabFocus (tab_name : String)
deriving DecidableEq, Repr

/-- Embedding of `message_to_event` (notify/server.rs; the register tool
field is discarded there).  The tab_focus arm is Modelled from the spec:
the checked-in server.rs predates the TabFocus message and lacks its arm;
the spec delivers a tab-focus event like the other three. -/
def message_to_event : NotifyMessage → NotifyEvent
  | NotifyMessage.register session_id project_path _ =>
    NotifyEvent.workspaceRegister session_id project_path none
  | NotifyMessage.status session_id status message =>
    NotifyEvent.workspaceUpdate session_id (WorkspaceStatus.from_str status) message
  | NotifyMessage.unregister session_id =>
    NotifyEvent.workspaceUnregister session_id
  | NotifyMessage.tab_focus tab_name =>
    NotifyEvent.tabFocus tab_name

/-- An optional string field under serde: absent and null decode to none,
a string decodes to some, any other value is a parse error. -/
def parseOptStr (j : Json) (k : String) : Option (Option String) :=
  match j.get k with
  | none => some none
  | some Json.null => some none
  | some (Json.str s) => some (some s)
  | some _ => none

/-- A mandatory string field under serde. -/
def parseReqStr (j : Json) (k : String) : Option String :=
  (j.get k).bind Json.asStr

/-- Modelled from the spec and the `NotifyMessage` declaration: the serde
decoder for the internally tagged enum (discriminator field `type` with
values register, status, unregister, tab_focus; unknown discriminators and
missing mandatory fields fail). -/
def parseNotifyMessage (j : Json) : Option NotifyMessage :=
  match (j.get "type").bind Json.asStr with
  | some t =>
    if t = "register" then
      match parseReqStr j "session_id", parseReqStr j "project_path",
          parseOptStr j "tool" with
      | some session_id, some project_path, some tool =>
        some (NotifyMessage.register session_id project_path tool)
      | _, _, _ => none
    else if t = "status" then
      match parseReqStr j "session_id", parseReqStr j "status",
          parseOptStr j "message" with
      | some session_id, some status, some message =>
        some (NotifyMessage.status session_id status message)
      | _, _, _ => none
    else if t = "unregister" then
      match parseReqStr j "session_id" with
      | some session_id => some (NotifyMessage.unregister session_id)
      | none => none
    else if t = "tab_focus" then
      match parseReqStr j "tab_name" with
      | some tab_name => some (NotifyMessage.tab_focus tab_name)
      | none => none
    else none
  | none => none

/-- Embedding of the pure core of `handle_connection`: a frame whose
length prefix exceeds one MiB is dropped before reading the body; a body
that is not valid JSON (`none`) or does not decode to a message is
dropped; otherwise the one translated event is delivered. -/
def handle_connection (len : Nat) (body : Option Json) : Option NotifyEvent :=
  if len > 1024 * 1024 then none
  else (body.bind parseNotifyMessage).map message_to_event

/-- Claim C8: an oversized length prefix or an unparseable body delivers
no event, and a parsed message delivers exactly the one corresponding
event for each of the four message types. -/
theorem claim_C8 (len : Nat) (body : Option Json) :
    (len > 1024 * 1024 → handle_connection len body = none) ∧
    (body = none → handle_connection len body = none) ∧
    (∀ j, body = some j → parseNotifyMessage j = none →
      handle_connection len body = none) ∧
    (∀ j m, len ≤ 1024 * 1024 → body = some j → parseNotifyMessage j = some m →
      handle_connection len body = some (message_to_event m)) ∧
    (∀ session_id project_path tool,
      message_to_event (NotifyMessage.register session_id project_path tool) =
        NotifyEvent.workspaceRegister session_id project_path none) ∧
    (∀ session_id status message,
      message_to_event (NotifyMessage.status session_id status message) =
        NotifyEvent.workspaceUpdate session_id
          (WorkspaceStatus.from_str status) message) ∧
    (∀ session_id,
      message_to_event (NotifyMessage.unregister session_id) =
        NotifyEvent.workspaceUnregister session_id) ∧
    (∀ tab_name,
      message_to_event (NotifyMessage.tab_focus tab_name) =
        NotifyEvent.tabFocus tab_name) := by
  refine ⟨?_, ?_, ?_, ?_, fun _ _ _ => rfl, fun _ _ _ => rfl, fun _ => rfl,
    fun _ => rfl⟩
  · intro hlen
    simp [handle_connection, hlen]
  · intro hbody
    simp [handle_connection, hbody]
  · intro j hbody hparse
    simp [handle_connection, hbody, hparse]
  · intro j m hlen hbody hparse
    have hnot : ¬ len > 1024 * 1024 := by omega
    simp [handle_connection, hnot, hbody, hparse]

/-- Witness for claim C8: a concrete register frame of admissible length
delivers exactly its register event, and an oversized frame is dropped. -/
theorem claim_C8_witness :
    (handle_connection 64
        (some (Json.obj [("type", Json.str "register"),
          ("session_id", Json.str "claude:abc"),
          ("project_path", Json.str "/w/p")])) =
      some (message_to_event
        (NotifyMessage.register "claude:abc" "/w/p" none))) ∧
    (handle_connection 2000000 (some (Json.obj [("type", Json.str "register"),
          ("session_id", Json.str "claude:abc"),
          ("project_path", Json.str "/w/p")])) = none) :=
  ⟨(claim_C8 64 _).2.2.2.1 _ (NotifyMessage.register "claude:abc" "/w/p" none)
      (by omega) rfl (by decide),
   (claim_C8 2000000 _).1 (by omega)⟩

end WorkspaceManager
